import Mathlib

/-!
Shallow embedding of the core text-structuring engine of
`google_podcast_server.py`: turn generation (`generate_dialogue_turns`),
script parsing (`parse_google_script`) and the speaker-mapping converter
behind the `convert_to_google_format` tool.

Python strings are modelled as `String` (a structure over `List Char`),
with the per-character work done on `List Char`; Python `dict`s are
modelled as insertion-ordered association lists; the one fallible spot in
the code (`key_points[i % len(key_points)]`, which raises
`ZeroDivisionError` on an empty list) is modelled with `Option`.
-/

/-- ASCII whitespace, as recognised by Python's `str.strip()` and the
regex class `\s` on the inputs at issue. -/
def pySpace (c : Char) : Bool :=
  c == ' ' || c == '\t' || c == '\n' || c == '\r' || c == '\x0b' || c == '\x0c'

/-- Python `str.strip()` on a character list: drop leading and trailing
whitespace. -/
def stripL (l : List Char) : List Char :=
  ((l.dropWhile pySpace).reverse.dropWhile pySpace).reverse

/-- Python `s.split('\n')`: split on every newline, keeping empty pieces
(never returns an empty list). -/
def splitNl : List Char → List (List Char)
  | [] => [[]]
  | c :: rest =>
    if c = '\n' then [] :: splitNl rest
    else
      match splitNl rest with
      | [] => [[c]]
      | l :: ls => (c :: l) :: ls

/-- Python `s.split('\n\n')`: split on every non-overlapping occurrence of
two consecutive newlines, scanning left to right. -/
def splitNl2 : List Char → List (List Char)
  | [] => [[]]
  | '\n' :: '\n' :: rest => [] :: splitNl2 rest
  | c :: rest =>
    match splitNl2 rest with
    | [] => [[c]]
    | l :: ls => (c :: l) :: ls

/-- Python `'\n'.join(...)` on character lists. -/
def joinNl : List (List Char) → List Char
  | [] => []
  | [l] => l
  | l :: ls => l ++ '\n' :: joinNl ls

/-- Python `line.split('|', 1)`: the part before the first `'|'` and the
part after it (the second component is only meaningful when the line
contains a `'|'`). -/
def splitPipe : List Char → List Char × List Char
  | [] => ([], [])
  | '|' :: rest => ([], rest)
  | c :: rest =>
    let p := splitPipe rest
    (c :: p.1, p.2)

/-- Python `str.upper()` (the source only ever compares the result against
the ASCII letters R/S/T/U). -/
def upperL (l : List Char) : List Char := l.map Char.toUpper

/-- One dialogue turn: `{"speaker": ..., "text": ...}`. -/
structure Turn where
  speaker : String
  text : String
deriving DecidableEq, Repr

/-- The keys of the `GOOGLE_SPEAKERS` dict: the canonical multi-speaker
voice identifiers.  (The per-speaker metadata — name, personality,
description — is prose that no modelled operation inspects.) -/
def GOOGLE_SPEAKER_IDS : List String := ["R", "S", "T", "U"]

/-- The keys of `PODCAST_FORMATS`, in insertion order. -/
def formatNames : List String :=
  ["dialogue", "interview", "roundtable", "storytelling", "educational", "debate"]

/-- `PODCAST_FORMATS.get(format_type, PODCAST_FORMATS["dialogue"])`
restricted to the `"speakers"` field, the only field
`generate_dialogue_turns` reads.  (The `roles`, `description` and `style`
fields are prose used only by the unmodelled prompt renderer.) -/
def lookupFormat (name : String) : List String :=
  if name = "dialogue" then ["R", "S"]
  else if name = "interview" then ["R", "S"]
  else if name = "roundtable" then ["R", "S", "T", "U"]
  else if name = "storytelling" then ["R", "S", "T"]
  else if name = "educational" then ["R", "S"]
  else if name = "debate" then ["R", "S", "T"]
  else ["R", "S"]

/-- The `content_prompts` pool (10 fixed question prompts). -/
def content_prompts : List String :=
  ["What's the most important thing people should understand?",
   "Can you give us a specific example?",
   "How does this impact our daily lives?",
   "What are the common misconceptions?",
   "What does the future hold?",
   "What challenges do we face?",
   "Are there any surprising aspects?",
   "How can people get involved?",
   "What's your personal experience with this?",
   "What advice would you give?"]

/-- The `responses` pool (10 fixed response intros). -/
def responses : List String :=
  ["That's a great question. Let me explain...",
   "Actually, it's quite fascinating when you look at it closely...",
   "People often don't realize that...",
   "From my perspective, the key is...",
   "What's really interesting is...",
   "The data shows us that...",
   "In my experience...",
   "Here's what I've learned...",
   "The breakthrough came when...",
   "This reminds me of..."]

/-- The `reactions` pool (4 fixed reaction phrases). -/
def reactions : List String :=
  ["I'd like to add to that point...",
   "That's interesting, but have you considered...",
   "Building on what was just said...",
   "From another angle..."]

/-- One iteration `i` of the main-content loop of
`generate_dialogue_turns`: a question turn, a response turn, and (for >2
speakers, every third iteration) a reaction turn.  `kps = some kp` models
`additional_context` being truthy and containing key `"key_points"` bound
to `kp`; `none` models every other `additional_context`.  Returns `none`
exactly when Python raises `ZeroDivisionError` on `i % len(key_points)`
with an empty `key_points`. -/
def bodyStep (speakers : List String) (topic : String)
    (kps : Option (List String)) (i : Nat) : Option (List Turn) :=
  let question : Turn :=
    ⟨speakers.getD 0 "", content_prompts.getD (i % content_prompts.length) ""⟩
  let response_intro := responses.getD (i % responses.length) ""
  let response_text? : Option String :=
    match kps with
    | some kp =>
      if kp.length = 0 then none
      else some (response_intro ++ " When it comes to " ++ kp.getD (i % kp.length) ""
        ++ " in " ++ topic ++ ", we're seeing significant developments.")
    | none =>
      some (response_intro ++ " " ++ topic ++ " has many dimensions we need to consider.")
  match response_text? with
  | none => none
  | some response_text =>
    let response : Turn := ⟨speakers.getD (1 % speakers.length) "", response_text⟩
    let reaction : List Turn :=
      if 2 < speakers.length ∧ i % 3 = 0 then
        [⟨speakers.getD (2 % speakers.length) "", reactions.getD (i % reactions.length) ""⟩]
      else []
    some ([question, response] ++ reaction)

/-- The main-content `for i in range(n)` loop, accumulating turns in
order; `none` as soon as one iteration raises. -/
def genBody (speakers : List String) (topic : String)
    (kps : Option (List String)) : Nat → Option (List Turn)
  | 0 => some []
  | n + 1 =>
    match genBody speakers topic kps n, bodyStep speakers topic kps n with
    | some acc, some step => some (acc ++ step)
    | _, _ => none

/-- The opening block of `generate_dialogue_turns` (branching on the raw
`format_type` string, exactly as the source does). -/
def openingTurns (format_type topic : String) (speakers : List String) : List Turn :=
  if format_type = "interview" then
    [⟨"R", "Welcome to today's discussion about " ++ topic ++
        ". I'm here with an expert who's going to share fascinating insights with us."⟩,
     ⟨"S", "Thank you for having me! I'm excited to dive into this topic with your listeners."⟩]
  else if format_type = "debate" then
    [⟨"R", "Welcome to our debate on " ++ topic ++
        ". We have two distinguished speakers with opposing viewpoints."⟩,
     ⟨"S", "I'm here to argue for the positive aspects and potential benefits."⟩,
     ⟨"T", "And I'll be presenting the concerns and challenges we need to consider."⟩]
  else
    [⟨speakers.getD 0 "", "Let's explore " ++ topic ++ " together."⟩] ++
    (if 1 < speakers.length then
      [⟨speakers.getD 1 "", "Absolutely! This is such a relevant topic right now."⟩]
     else [])

/-- The closing block of `generate_dialogue_turns`. -/
def closingTurns (topic : String) (speakers : List String) : List Turn :=
  [⟨speakers.getD 0 "", "This has been an enlightening discussion about " ++ topic ++
      ". Any final thoughts?"⟩] ++
  (if 1 < speakers.length then
    [⟨speakers.getD 1 "", "The key takeaway is to stay informed and engaged with these developments."⟩]
   else []) ++
  [⟨speakers.getD 0 "", "Thank you for joining us today. Until next time!"⟩]

/-- `generate_dialogue_turns(topic, format_type, duration_minutes,
additional_context)`.  `duration_minutes` is a Python `int`, so `Int`
here; `range(min(num_turns - 4, len(content_prompts)))` is empty for a
negative bound, which `Int.toNat` reproduces.  The result is `none`
exactly when the Python call raises (`ZeroDivisionError` from an empty
`key_points`). -/
def generate_dialogue_turns (topic format_type : String) (duration_minutes : Int)
    (additional_context : Option (List String)) : Option (List Turn) :=
  let speakers := lookupFormat format_type
  let num_turns : Int := duration_minutes * 2
  let bodyIters : Nat := (min (num_turns - 4) (content_prompts.length : Int)).toNat
  match genBody speakers topic additional_context bodyIters with
  | some body =>
    some (openingTurns format_type topic speakers ++ body ++ closingTurns topic speakers)
  | none => none

/-- The canonical pipe line a single turn serializes to,
`f"{turn['speaker']}|{turn['text']}"`. -/
def lineOf (t : Turn) : List Char :=
  t.speaker.data ++ '|' :: t.text.data

/-- `"\n".join(f"{turn['speaker']}|{turn['text']}" for turn in turns)`:
the canonical serialization used by the `generate_google_script` tool
(line 554 of the source). -/
def serializeTurns (ts : List Turn) : String :=
  ⟨joinNl (ts.map lineOf)⟩

/-- `not line or line.startswith('#') or line.startswith('//')`. -/
def blankOrComment (l : List Char) : Bool :=
  l.isEmpty || l.head? == some '#' || l.take 2 == ['/', '/']

/-- The pipe tier of `parse_google_script` on a (stripped, non-blank,
non-comment) line containing `'|'`: split on the first pipe, strip and
uppercase the label, validate it against the speaker ids, require
non-empty text. -/
def pipeTier (line : List Char) : Option Turn :=
  let p := splitPipe line
  let speaker : String := ⟨upperL (stripL p.1)⟩
  let text := stripL p.2
  if speaker ∈ GOOGLE_SPEAKER_IDS ∧ text ≠ [] then some ⟨speaker, ⟨text⟩⟩ else none

/-- The colon tier of `parse_google_script`:
`re.match(r'^([RSTU]):\s*(.+)$', line)` followed by `text.strip()` and a
non-emptiness test.  The regex consumes one canonical capital, a colon,
then greedy `\s*` and `(.+)$`; after the final `.strip()` the emitted text
is exactly the stripped remainder after the colon, and a turn is emitted
iff that stripped remainder is non-empty. -/
def colonTier (line : List Char) : Option Turn :=
  match line with
  | c :: ':' :: rest =>
    if c = 'R' ∨ c = 'S' ∨ c = 'T' ∨ c = 'U' then
      if stripL rest ≠ [] then some ⟨⟨[c]⟩, ⟨stripL rest⟩⟩ else none
    else none
  | _ => none

/-- The per-line phase of `parse_google_script`: strip the line, skip
blank/comment lines, then try the pipe tier, else the colon tier. -/
def parseLine (rawLine : List Char) : Option Turn :=
  let line := stripL rawLine
  if blankOrComment line then none
  else if '|' ∈ line then pipeTier line
  else if ':' ∈ line then colonTier line
  else none

/-- `parse_google_script(script)`: per-line tiers over
`script.strip().split('\n')`; if they produce no turn and the script is
non-blank, fall back to splitting the raw script on blank lines and
assigning paragraphs alternately to speakers `R` and `S`. -/
def parse_google_script (script : String) : List Turn :=
  let lines := splitNl (stripL script.data)
  let turns := lines.filterMap parseLine
  if turns = [] ∧ stripL script.data ≠ [] then
    let paragraphs := (splitNl2 script.data).filterMap
      (fun p => let q := stripL p; if q = [] then none else some q)
    paragraphs.enum.map
      (fun pr => ⟨["R", "S"].getD (pr.1 % 2) "", ⟨pr.2⟩⟩)
  else turns

/-- The character class of the converter's label pattern,
`[A-Za-z\s\-\'\.]`. -/
def inLabelClass (c : Char) : Bool :=
  c.isAlpha || pySpace c || c == '-' || c == '\'' || c == '.'

/-- The tail `\s*:\s*(.+)$` (when `needText`) or `\s*:` (detection
pattern, which has no text group) of the converter regexes, applied after
the label (and optional bracketed annotation).  Returns the characters
after the colon; for the text-capturing pattern the match fails when
nothing follows the colon (`(.+)` needs at least one character — the
greedy `\s*` backtracks otherwise, so the captured group strips to
exactly the stripped remainder after the colon). -/
def matchColonTail (needText : Bool) (rest : List Char) : Option (List Char) :=
  match rest.dropWhile pySpace with
  | ':' :: r2 => if needText && r2.isEmpty then none else some r2
  | _ => none

/-- Backtracking for the lazy `.*?\]` of the optional bracketed
annotation: try each closing bracket in turn, nearest first. -/
def tryBrackets (needText : Bool) : List Char → Option (List Char)
  | [] => none
  | ']' :: rest =>
    match matchColonTail needText rest with
    | some t => some t
    | none => tryBrackets needText rest
  | _ :: rest => tryBrackets needText rest

/-- After a candidate label: the regex first tries the optional group
`(?:\s*\[.*?\])?` (greedy option), then falls back to matching `\s*:`
directly. -/
def matchAfterLabel (needText : Bool) (rest : List Char) : Option (List Char) :=
  match rest.dropWhile pySpace with
  | '[' :: r2 =>
    match tryBrackets needText r2 with
    | some t => some t
    | none => matchColonTail needText rest
  | _ => matchColonTail needText rest

/-- Backtracking for the lazy label `([A-Za-z\s\-\'\.]+?)`: grow the label
one class character at a time (shortest first, as the lazy quantifier
does) and try the continuation after each growth step. -/
def labelScan (needText : Bool) (label : List Char) :
    List Char → Option (List Char × List Char)
  | [] => none
  | c :: cs =>
    if inLabelClass c then
      match matchAfterLabel needText cs with
      | some t => some (label ++ [c], t)
      | none => labelScan needText (label ++ [c]) cs
    else none

/-- `re.match(r'^([A-Za-z\s\-\'\.]+?)(?:\s*\[.*?\])?\s*:\s*(.+)$', line)`
(with `needText = true`), or the detection variant without the text group
(`needText = false`).  Returns (group 1, characters after the colon). -/
def labelMatch (needText : Bool) (line : List Char) : Option (List Char × List Char) :=
  labelScan needText [] line

/-- The auto-mapping detection loop of `convert_to_google_format`: over
the raw lines of the script, record each new stripped label (when
non-empty), in first-appearance order. -/
def detectSpeakers (script : String) : List String :=
  (splitNl script.data).foldl
    (fun acc line =>
      if ':' ∈ line then
        match labelMatch false line with
        | some pr =>
          let sp : String := ⟨stripL pr.1⟩
          if sp ≠ "" ∧ sp ∉ acc then acc ++ [sp] else acc
        | none => acc
      else acc)
    []

/-- `for i, speaker in enumerate(speakers[:4]): speaker_mapping[speaker] =
google_ids[i]`: the first (at most) four detected labels, mapped onto
`R, S, T, U` in order. -/
def autoMapping (script : String) : List (String × String) :=
  ((detectSpeakers script).take 4).zip ["R", "S", "T", "U"]

/-- The stripped label a line presents to the conversion loop (the value
looked up in the speaker mapping), when the conversion regex matches. -/
def convLabel (rawLine : List Char) : Option String :=
  let line := stripL rawLine
  if ':' ∈ line then (labelMatch true line).map (fun pr => (⟨stripL pr.1⟩ : String))
  else none

/-- One iteration of the conversion loop of `convert_to_google_format`:
strip the line, skip it if blank, match the label pattern, look the
stripped label up in the mapping, and emit `f"{google_id}|{text}"` when
the mapped id and the stripped text are both non-empty (`if google_id and
text`).  Returns the (zero or one) output lines the iteration appends. -/
def convertLine (mapping : List (String × String)) (rawLine : List Char) : List String :=
  let line := stripL rawLine
  if line = [] then []
  else if ':' ∈ line then
    match labelMatch true line with
    | some pr =>
      let speaker : String := ⟨stripL pr.1⟩
      let text : String := ⟨stripL pr.2⟩
      match mapping.lookup speaker with
      | some google_id =>
        if google_id ≠ "" ∧ text ≠ "" then [google_id ++ "|" ++ text] else []
      | none => []
    | none => []
  else []

/-- The full conversion loop over `script.split('\n')`. -/
def convertedLines (script : String) (mapping : List (String × String)) : List String :=
  ((splitNl script.data).map (convertLine mapping)).flatten

/-- The `convert_to_google_format` tool body: an explicitly supplied
non-empty mapping is used as-is, otherwise the auto-mapping is built;
`none` models the "Could not convert script" error text returned when no
line converts. -/
def convert_to_google_format (script : String)
    (speaker_mapping : List (String × String)) : Option String :=
  let mapping := if speaker_mapping.isEmpty then autoMapping script else speaker_mapping
  let ls := convertedLines script mapping
  if ls.isEmpty then none
  else some ⟨joinNl (ls.map String.data)⟩

/-- The first character exists and is not whitespace. -/
def headNS : List Char → Bool
  | [] => false
  | c :: _ => !pySpace c

/-- No newline character occurs in the list. -/
def noNl : List Char → Bool
  | [] => true
  | c :: cs => (c != '\n') && noNl cs

/-- A "well-edged" text: newline-free, non-empty, and neither starting nor
ending with whitespace (so it survives the strip/split steps of the
serialize-then-parse round trip unchanged). -/
def goodTextB (l : List Char) : Bool :=
  noNl l && headNS l && headNS l.reverse

/-- A turn whose speaker is a canonical id and whose text is well-edged. -/
def goodTurn (t : Turn) : Prop :=
  t.speaker ∈ GOOGLE_SPEAKER_IDS ∧ goodTextB t.text.data = true

/-- The anchoring described by the specification for the colon tier,
stated from its words: the line starts with exactly one of the four
canonical letters, immediately followed by `:` and (possibly empty)
whitespace, and the captured remainder is non-empty after trimming. -/
def colonClaimPattern (l : List Char) : Prop :=
  ∃ c ws rem, (c = 'R' ∨ c = 'S' ∨ c = 'T' ∨ c = 'U') ∧
    l = c :: ':' :: (ws ++ rem) ∧ (∀ x ∈ ws, pySpace x = true) ∧ stripL rem ≠ []

/-! ## Theorems -/

/-- C3: the code, not the claim, is at fault here: with
`additional_context = {"key_points": []}` and a duration whose body loop
runs at least once, `generate_dialogue_turns` raises `ZeroDivisionError`
at `i % len(key_points)` (modelled as `none`) instead of returning a turn
sequence as the specification requires. -/
theorem c3_generate_empty_key_points_aborts :
    generate_dialogue_turns "AI" "dialogue" 3 (some []) = none := rfl

/-- C1 counterexample: at format `"dialogue"` (a catalog format) and
`durationMinutes = 3 ≥ 1`, the context binding `key_points` to the empty
list makes `generate_dialogue_turns` abort, so no turn sequence at all is
returned, refuting the claim as universally stated over contexts. -/
theorem c1_counterexample :
    "dialogue" ∈ formatNames ∧ (1 : Int) ≤ 3 ∧
      ¬ ∃ ts, generate_dialogue_turns "tech" "dialogue" 3 (some []) = some ts ∧
        4 ≤ ts.length ∧ ∀ t ∈ ts, t.speaker ∈ lookupFormat "dialogue" := by
  refine ⟨by decide, by decide, ?_⟩
  rintro ⟨ts, h, -⟩
  have : generate_dialogue_turns "tech" "dialogue" 3 (some []) = none := rfl
  rw [this] at h
  exact Option.noConfusion h

/-- C2 counterexample: with the topic `"A\nB"` (which contains a
newline), the canonical pipe-line serialization of the generated turns
does not parse back to the same turn sequence: the newline inside the
first turn's text splits it across two lines, and the stray second line
is dropped by the parser. -/
theorem c2_counterexample :
    generate_dialogue_turns "A\nB" "dialogue" 1 none ≠ none ∧
      parse_google_script
          (serializeTurns ((generate_dialogue_turns "A\nB" "dialogue" 1 none).getD []))
        ≠ (generate_dialogue_turns "A\nB" "dialogue" 1 none).getD [] := by
  constructor
  · decide
  · decide

/-- C4 counterexample: on the script consisting of the single comment
line `"# hello"`, the per-line tiers produce nothing, and the whole-script
paragraph fallback then emits a turn whose text is exactly the comment
line — so a comment line does contribute to an emitted turn. -/
theorem c4_counterexample :
    parse_google_script "# hello" = [⟨"R", "# hello"⟩] := rfl

/-- C4 (amended): blank lines and comment lines never contribute to a
turn in the per-line tiers — removing every such line from the line list
leaves the per-line parse unchanged (the whole-script paragraph fallback,
however, operates on the raw script text and is exempt). -/
theorem c4_amended_comment_lines_inert (lines : List (List Char)) :
    (lines.filter (fun l => !blankOrComment (stripL l))).filterMap parseLine
      = lines.filterMap parseLine := by
  induction lines with
  | nil => rfl
  | cons l ls ih =>
    by_cases h : blankOrComment (stripL l) = true
    · have hnone : parseLine l = none := by
        unfold parseLine
        simp [h]
      simp [List.filter_cons, h, List.filterMap_cons, hnone, ih]
    · simp [List.filter_cons, h, List.filterMap_cons, ih]

/-- C5: auto-mapping on `"Alice: Hi there\nBob: Hello back"` assigns the
labels, in first-appearance order, to `R` then `S`, and conversion
produces exactly the canonical text `"R|Hi there\nS|Hello back"`. -/
theorem c5_auto_map_convert :
    autoMapping "Alice: Hi there\nBob: Hello back" = [("Alice", "R"), ("Bob", "S")] ∧
      convert_to_google_format "Alice: Hi there\nBob: Hello back" []
        = some "R|Hi there\nS|Hello back" :=
  ⟨rfl, rfl⟩

/-- C10: conversion with an explicitly supplied mapping emits the mapped
value verbatim — here the non-canonical id `"X"` — with no validation
against the canonical speaker set. -/
theorem c10_explicit_mapping_unvalidated :
    convert_to_google_format "Alice: Hi there" [("Alice", "X")] = some "X|Hi there" ∧
      "X" ∉ GOOGLE_SPEAKER_IDS :=
  ⟨rfl, by decide⟩

/-- C9: `generate_dialogue_turns` is deterministic — two calls with
identical topic, format name, duration and context return identical turn
sequences (the embedding is a pure function; no pool index is sampled). -/
theorem c9_generate_deterministic
    (t₁ t₂ f₁ f₂ : String) (d₁ d₂ : Int) (c₁ c₂ : Option (List String))
    (ht : t₁ = t₂) (hf : f₁ = f₂) (hd : d₁ = d₂) (hc : c₁ = c₂) :
    generate_dialogue_turns t₁ f₁ d₁ c₁ = generate_dialogue_turns t₂ f₂ d₂ c₂ := by
  subst ht hf hd hc; rfl

/-- C9 witness: the determinism theorem applied at a concrete input. -/
theorem c9_witness :
    generate_dialogue_turns "AI" "interview" 2 none
      = generate_dialogue_turns "AI" "interview" 2 none :=
  c9_generate_deterministic "AI" "AI" "interview" "interview" 2 2 none none
    rfl rfl rfl rfl

/-- C8: an unknown format name behaves exactly like the default format
`"dialogue"`: the catalog lookup falls back to the dialogue entry and the
opening branches on the literal names `"interview"`/`"debate"`, which an
unknown name cannot equal — no error is signalled. -/
theorem c8_unknown_format_fallback
    (topic fmt : String) (d : Int) (ctx : Option (List String))
    (hf : fmt ∉ formatNames) :
    generate_dialogue_turns topic fmt d ctx
      = generate_dialogue_turns topic "dialogue" d ctx := by
  simp only [formatNames, List.mem_cons, List.not_mem_nil, or_false, not_or] at hf
  obtain ⟨h1, h2, h3, h4, h5, h6⟩ := hf
  have hlf : lookupFormat fmt = ["R", "S"] := by
    unfold lookupFormat
    simp [h1, h2, h3, h4, h5, h6]
  have hop : openingTurns fmt topic ["R", "S"] = openingTurns "dialogue" topic ["R", "S"] := by
    unfold openingTurns
    simp [h2, h6]
  simp only [generate_dialogue_turns, hlf,
    show lookupFormat "dialogue" = ["R", "S"] from rfl, hop]

/-- C8 witness: the fallback theorem applied at the unknown format name
`"foo"`. -/
theorem c8_witness :
    generate_dialogue_turns "AI" "foo" 2 none
      = generate_dialogue_turns "AI" "dialogue" 2 none :=
  c8_unknown_format_fallback "AI" "foo" 2 none (by decide)

/-- An association-list lookup misses every key that is not among the
stored keys. -/
theorem lookup_eq_none_of_not_mem_keys (m : List (String × String)) (k : String)
    (h : k ∉ m.map Prod.fst) : m.lookup k = none := by
  induction m with
  | nil => rfl
  | cons a tl ih =>
    obtain ⟨a1, a2⟩ := a
    simp only [List.map_cons, List.mem_cons, not_or] at h
    have hne : (k == a1) = false := by simp [h.1]
    simp only [List.lookup, hne]
    exact ih h.2

/-- C6: the auto-mapping retains at most 4 labels, and conversion
silently omits every line whose (regex-extracted, stripped) label is not
among the mapped keys: that line contributes no output line, placeholder
or diagnostic at all. -/
theorem c6_label_cap_and_silent_drop (script : String) :
    (autoMapping script).length ≤ 4 ∧
      ∀ (lbl : String) (rawLine : List Char),
        convLabel rawLine = some lbl →
        lbl ∉ (autoMapping script).map Prod.fst →
        convertLine (autoMapping script) rawLine = [] := by
  constructor
  · unfold autoMapping
    simp only [List.length_zip, List.length_take]
    omega
  · intro lbl rawLine hcl hnot
    unfold convLabel at hcl
    by_cases hc : ':' ∈ stripL rawLine
    · simp only [hc, if_true, Option.map_eq_some'] at hcl
      obtain ⟨pr, hpr, hlbl⟩ := hcl
      have hne : stripL rawLine ≠ [] := by
        intro h0
        rw [h0] at hc
        exact List.not_mem_nil _ hc
      unfold convertLine
      simp only [hne, if_false, hc, if_true, hpr]
      rw [hlbl, lookup_eq_none_of_not_mem_keys _ _ hnot]
    · simp [hc] at hcl

/-- C6 witness: a script naming five distinct labels — the mapping keeps
only the first four, and the line labelled by the fifth label `"E"` is
dropped with no output. -/
theorem c6_witness :
    (autoMapping "A: a\nB: b\nC: c\nD: d\nE: e").length ≤ 4 ∧
      convLabel "E: e".data = some "E" ∧
      "E" ∉ (autoMapping "A: a\nB: b\nC: c\nD: d\nE: e").map Prod.fst ∧
      convertLine (autoMapping "A: a\nB: b\nC: c\nD: d\nE: e") "E: e".data = [] :=
  ⟨(c6_label_cap_and_silent_drop "A: a\nB: b\nC: c\nD: d\nE: e").1, rfl, by decide,
    (c6_label_cap_and_silent_drop "A: a\nB: b\nC: c\nD: d\nE: e").2 "E" "E: e".data
      rfl (by decide)⟩

/-- Dropping an all-whitespace prefix commutes with `dropWhile pySpace`. -/
theorem dropWhile_append_spaces (ws rem : List Char)
    (h : ∀ x ∈ ws, pySpace x = true) :
    (ws ++ rem).dropWhile pySpace = rem.dropWhile pySpace := by
  induction ws with
  | nil => rfl
  | cons w ws ih =>
    have hw : pySpace w = true := h w (List.mem_cons_self _ _)
    simp only [List.cons_append, List.dropWhile_cons, hw, if_true]
    exact ih fun x hx => h x (List.mem_cons_of_mem _ hx)

/-- Stripping ignores an all-whitespace prefix. -/
theorem stripL_append_spaces (ws rem : List Char)
    (h : ∀ x ∈ ws, pySpace x = true) :
    stripL (ws ++ rem) = stripL rem := by
  unfold stripL
  rw [dropWhile_append_spaces ws rem h]

/-- The colon tier succeeds exactly on lines of the shape
`canonical-letter, ':', rest` with `rest` non-blank. -/
theorem colonTier_eq_some_iff (l : List Char) :
    (∃ t, colonTier l = some t) ↔
      ∃ c rest, l = c :: ':' :: rest ∧ (c = 'R' ∨ c = 'S' ∨ c = 'T' ∨ c = 'U') ∧
        stripL rest ≠ [] := by
  constructor
  · rintro ⟨t, ht⟩
    unfold colonTier at ht
    split at ht
    · rename_i c rest
      split at ht
      · rename_i hc
        split at ht
        · rename_i hs
          exact ⟨c, rest, rfl, hc, hs⟩
        · exact absurd ht (by simp)
      · exact absurd ht (by simp)
    · exact absurd ht (by simp)
  · rintro ⟨c, rest, rfl, hc, hs⟩
    exact ⟨⟨⟨[c]⟩, ⟨stripL rest⟩⟩, by simp [colonTier, hc, hs]⟩

/-- C7: for a line (as processed: after trimming) without `'|'` but
containing `':'`, the parser emits a turn iff the line starts with
exactly one of the four canonical letters `R,S,T,U` immediately followed
by `':'` and (possibly empty) whitespace, with the captured remainder
non-empty after trimming; any other colon line emits no turn. -/
theorem c7_colon_tier_anchoring (line : String)
    (h1 : '|' ∉ stripL line.data) (h2 : ':' ∈ stripL line.data) :
    (∃ t, parseLine line.data = some t) ↔ colonClaimPattern (stripL line.data) := by
  have hb : blankOrComment (stripL line.data) = true → parseLine line.data = none := by
    intro h
    unfold parseLine
    simp [h]
  constructor
  · rintro ⟨t, ht⟩
    by_cases hbc : blankOrComment (stripL line.data) = true
    · rw [hb hbc] at ht
      exact absurd ht (by simp)
    · unfold parseLine at ht
      simp only [hbc, if_false, h1, h2, if_true] at ht
      obtain ⟨c, rest, hshape, hc, hs⟩ := (colonTier_eq_some_iff _).mp ⟨t, ht⟩
      exact ⟨c, [], rest, hc, by simpa using hshape, by simp, hs⟩
  · rintro ⟨c, ws, rem, hc, hshape, hws, hrem⟩
    have hbc : blankOrComment (stripL line.data) = false := by
      rw [hshape]
      rcases hc with rfl | rfl | rfl | rfl <;> rfl
    have hct : ∃ t, colonTier (stripL line.data) = some t := by
      refine (colonTier_eq_some_iff _).mpr ⟨c, ws ++ rem, hshape, hc, ?_⟩
      rw [stripL_append_spaces ws rem hws]
      exact hrem
    obtain ⟨t, ht⟩ := hct
    refine ⟨t, ?_⟩
    unfold parseLine
    simp only [hbc, if_false, h1, h2, if_true]
    exact ht

/-- The catalog lookup only ever yields one of the three speaker lists
that occur in `PODCAST_FORMATS`. -/
theorem lookupFormat_cases (fmt : String) :
    lookupFormat fmt = ["R", "S"] ∨ lookupFormat fmt = ["R", "S", "T", "U"] ∨
      lookupFormat fmt = ["R", "S", "T"] := by
  unfold lookupFormat
  repeat' split
  all_goals decide

/-- For every catalog speaker list, the three indices the body loop uses
select members of the list, and the list has at least two speakers. -/
theorem speaker_indices_mem (S : List String)
    (hS : S = ["R", "S"] ∨ S = ["R", "S", "T", "U"] ∨ S = ["R", "S", "T"]) :
    S.getD 0 "" ∈ S ∧ S.getD (1 % S.length) "" ∈ S ∧ S.getD (2 % S.length) "" ∈ S ∧
      1 < S.length := by
  rcases hS with rfl | rfl | rfl <;> decide

/-- One body iteration never aborts unless `key_points` is present and
empty, and its turns use only the three loop speaker indices. -/
theorem bodyStep_total (S : List String) (topic : String) (kps : Option (List String))
    (hk : kps ≠ some []) (i : Nat) :
    ∃ step, bodyStep S topic kps i = some step ∧
      ∀ t ∈ step, t.speaker = S.getD 0 "" ∨ t.speaker = S.getD (1 % S.length) "" ∨
        t.speaker = S.getD (2 % S.length) "" := by
  have hmem : ∀ (rt : String) t,
      t ∈ ([(⟨S.getD 0 "", content_prompts.getD (i % content_prompts.length) ""⟩ : Turn),
            ⟨S.getD (1 % S.length) "", rt⟩] ++
        (if 2 < S.length ∧ i % 3 = 0 then
          [(⟨S.getD (2 % S.length) "", reactions.getD (i % reactions.length) ""⟩ : Turn)]
         else [])) →
      t.speaker = S.getD 0 "" ∨ t.speaker = S.getD (1 % S.length) "" ∨
        t.speaker = S.getD (2 % S.length) "" := by
    intro rt t ht
    rcases List.mem_append.mp ht with h | h
    · simp only [List.mem_cons, List.not_mem_nil, or_false] at h
      rcases h with rfl | rfl
      · exact Or.inl rfl
      · exact Or.inr (Or.inl rfl)
    · split at h
      · simp only [List.mem_cons, List.not_mem_nil, or_false] at h
        subst h
        exact Or.inr (Or.inr rfl)
      · exact absurd h (List.not_mem_nil t)
  unfold bodyStep
  cases kps with
  | none => exact ⟨_, rfl, hmem _⟩
  | some kp =>
    have hkp : ¬ kp.length = 0 := by
      intro h
      exact hk (by rw [List.length_eq_zero.mp h])
    refine ⟨_, ?_, hmem (responses.getD (i % responses.length) "" ++ " When it comes to "
      ++ kp.getD (i % kp.length) "" ++ " in " ++ topic
      ++ ", we're seeing significant developments.")⟩
    simp only [if_neg hkp]

/-- The whole body loop never aborts unless `key_points` is present and
empty, and all its turns use only the three loop speaker indices. -/
theorem genBody_total (S : List String) (topic : String) (kps : Option (List String))
    (hk : kps ≠ some []) (n : Nat) :
    ∃ body, genBody S topic kps n = some body ∧
      ∀ t ∈ body, t.speaker = S.getD 0 "" ∨ t.speaker = S.getD (1 % S.length) "" ∨
        t.speaker = S.getD (2 % S.length) "" := by
  induction n with
  | zero => exact ⟨[], rfl, by simp⟩
  | succ n ih =>
    obtain ⟨body, hb, hbm⟩ := ih
    obtain ⟨step, hs, hsm⟩ := bodyStep_total S topic kps hk n
    refine ⟨body ++ step, ?_, ?_⟩
    · unfold genBody
      rw [hb, hs]
    · intro t ht
      rcases List.mem_append.mp ht with h | h
      · exact hbm t h
      · exact hsm t h

/-- When the body loop succeeds, `generate_dialogue_turns` returns the
opening, body and closing blocks in order. -/
theorem generate_eq_blocks (topic fmt : String) (d : Int) (ctx : Option (List String))
    (body : List Turn)
    (hb : genBody (lookupFormat fmt) topic ctx
        ((min (d * 2 - 4) (content_prompts.length : Int)).toNat) = some body) :
    generate_dialogue_turns topic fmt d ctx
      = some (openingTurns fmt topic (lookupFormat fmt) ++ body ++
          closingTurns topic (lookupFormat fmt)) := by
  simp only [generate_dialogue_turns, hb]

/-- Every opening turn's speaker belongs to the resolved speaker list. -/
theorem opening_speakers_mem (fmt topic : String) :
    ∀ t ∈ openingTurns fmt topic (lookupFormat fmt), t.speaker ∈ lookupFormat fmt := by
  intro t ht
  unfold openingTurns at ht
  by_cases h1 : fmt = "interview"
  · subst h1
    rw [if_pos rfl] at ht
    simp only [List.mem_cons, List.not_mem_nil, or_false] at ht
    rcases ht with rfl | rfl <;> dsimp only <;> decide
  · by_cases h2 : fmt = "debate"
    · subst h2
      rw [if_neg (show ¬ ("debate" : String) = "interview" by decide), if_pos rfl] at ht
      simp only [List.mem_cons, List.not_mem_nil, or_false] at ht
      rcases ht with rfl | rfl | rfl <;> dsimp only <;> decide
    · simp only [if_neg h1, if_neg h2] at ht
      rcases List.mem_append.mp ht with h | h
      · simp only [List.mem_cons, List.not_mem_nil, or_false] at h
        subst h
        dsimp only
        rcases lookupFormat_cases fmt with h | h | h <;> rw [h] <;> decide
      · split at h
        · simp only [List.mem_cons, List.not_mem_nil, or_false] at h
          subst h
          dsimp only
          rcases lookupFormat_cases fmt with h | h | h <;> rw [h] <;> decide
        · exact absurd h (List.not_mem_nil t)

/-- Every closing turn's speaker belongs to the resolved speaker list. -/
theorem closing_speakers_mem (fmt topic : String) :
    ∀ t ∈ closingTurns topic (lookupFormat fmt), t.speaker ∈ lookupFormat fmt := by
  intro t ht
  unfold closingTurns at ht
  rcases List.mem_append.mp ht with h | h
  · rcases List.mem_append.mp h with h | h
    · simp only [List.mem_cons, List.not_mem_nil, or_false] at h
      subst h
      dsimp only
      rcases lookupFormat_cases fmt with h | h | h <;> rw [h] <;> decide
    · split at h
      · simp only [List.mem_cons, List.not_mem_nil, or_false] at h
        subst h
        dsimp only
        rcases lookupFormat_cases fmt with h | h | h <;> rw [h] <;> decide
      · exact absurd h (List.not_mem_nil t)
  · simp only [List.mem_cons, List.not_mem_nil, or_false] at h
    subst h
    dsimp only
    rcases lookupFormat_cases fmt with h | h | h <;> rw [h] <;> decide

/-- The opening block has at least two turns when the speaker list has at
least two speakers. -/
theorem opening_length_ge (fmt topic : String) (S : List String) (hS : 1 < S.length) :
    2 ≤ (openingTurns fmt topic S).length := by
  unfold openingTurns
  by_cases h1 : fmt = "interview"
  · simp [h1]
  · by_cases h2 : fmt = "debate"
    · simp [h1, h2]
    · simp [h1, h2, hS]

/-- The closing block has exactly three turns when the speaker list has
at least two speakers. -/
theorem closing_length_eq (topic : String) (S : List String) (hS : 1 < S.length) :
    (closingTurns topic S).length = 3 := by
  unfold closingTurns
  simp [hS]

/-- C1 (amended): for every catalog format, every duration ≥ 1 and every
context that does not bind `key_points` to an empty list,
`generate_dialogue_turns` returns a sequence of at least 4 turns whose
speakers all belong to the template's speaker list.  (A context with an
empty `key_points` instead aborts the call for durations ≥ 3; see the
counterexample.) -/
theorem c1_amended_min_turns_and_speakers (topic fmt : String) (d : Int)
    (ctx : Option (List String)) (hf : fmt ∈ formatNames) (hd : 1 ≤ d)
    (hc : ctx ≠ some []) :
    ∃ ts, generate_dialogue_turns topic fmt d ctx = some ts ∧ 4 ≤ ts.length ∧
      ∀ t ∈ ts, t.speaker ∈ lookupFormat fmt := by
  obtain ⟨body, hb, hbm⟩ := genBody_total (lookupFormat fmt) topic ctx hc
    ((min (d * 2 - 4) (content_prompts.length : Int)).toNat)
  obtain ⟨hm0, hm1, hm2, hlen⟩ := speaker_indices_mem _ (lookupFormat_cases fmt)
  refine ⟨_, generate_eq_blocks topic fmt d ctx body hb, ?_, ?_⟩
  · have h1 := opening_length_ge fmt topic (lookupFormat fmt) hlen
    have h2 := closing_length_eq topic (lookupFormat fmt) hlen
    simp only [List.length_append]
    omega
  · intro t ht
    rcases List.mem_append.mp ht with h | h
    · rcases List.mem_append.mp h with h | h
      · exact opening_speakers_mem fmt topic t h
      · rcases hbm t h with he | he | he <;> rw [he] <;> assumption
    · exact closing_speakers_mem fmt topic t h

/-- C1 witness: the amended theorem applied at format `"dialogue"`,
duration 1, no context. -/
theorem c1_witness :
    "dialogue" ∈ formatNames ∧ (1 : Int) ≤ 1 ∧
      ∃ ts, generate_dialogue_turns "AI" "dialogue" 1 none = some ts ∧ 4 ≤ ts.length ∧
        ∀ t ∈ ts, t.speaker ∈ lookupFormat "dialogue" :=
  ⟨by decide, by decide,
    c1_amended_min_turns_and_speakers "AI" "dialogue" 1 none (by decide) (by decide)
      (by simp)⟩

/-- C7 witness: the anchoring theorem applied to the line `"R: hi"`,
which does emit a turn. -/
theorem c7_witness :
    '|' ∉ stripL "R: hi".data ∧ ':' ∈ stripL "R: hi".data ∧
      ((∃ t, parseLine "R: hi".data = some t) ↔ colonClaimPattern (stripL "R: hi".data)) :=
  ⟨by decide, by decide, c7_colon_tier_anchoring "R: hi" (by decide) (by decide)⟩

/-- `String.append` concatenates the underlying character lists. -/
theorem string_data_append (a b : String) : (a ++ b).data = a.data ++ b.data := rfl

/-- `noNl` distributes over list append. -/
theorem noNl_append (a b : List Char) :
    noNl (a ++ b) = (noNl a && noNl b) := by
  induction a with
  | nil => rfl
  | cons c cs ih => simp [noNl, ih, Bool.and_assoc]

/-- A non-space head survives appending on the right. -/
theorem headNS_append (a b : List Char) (h : headNS a = true) :
    headNS (a ++ b) = true := by
  cases a with
  | nil => exact absurd h (by simp [headNS])
  | cons c cs => simpa [headNS] using h

/-- A non-space last character of `b` is the last character of `a ++ b`. -/
theorem headNS_reverse_append (a b : List Char) (h : headNS b.reverse = true) :
    headNS ((a ++ b).reverse) = true := by
  rw [List.reverse_append]
  exact headNS_append _ _ h

/-- `dropWhile pySpace` fixes a list whose head is not whitespace. -/
theorem dropWhile_eq_self_of_headNS (l : List Char) (h : headNS l = true) :
    l.dropWhile pySpace = l := by
  cases l with
  | nil => rfl
  | cons c cs =>
    simp only [headNS, Bool.not_eq_true'] at h
    simp [List.dropWhile_cons, h]

/-- Stripping fixes a list with non-space first and last characters. -/
theorem stripL_eq_self (l : List Char) (h1 : headNS l = true)
    (h2 : headNS l.reverse = true) : stripL l = l := by
  unfold stripL
  rw [dropWhile_eq_self_of_headNS l h1, dropWhile_eq_self_of_headNS l.reverse h2,
    List.reverse_reverse]

/-- One-step unfolding of `splitNl` on a cons cell. -/
theorem splitNl_cons (c : Char) (rest : List Char) :
    splitNl (c :: rest) =
      if c = '\n' then [] :: splitNl rest
      else
        match splitNl rest with
        | [] => [[c]]
        | l :: ls => (c :: l) :: ls := rfl

/-- A newline-free list splits into itself alone. -/
theorem splitNl_of_noNl (l : List Char) (h : noNl l = true) : splitNl l = [l] := by
  induction l with
  | nil => rfl
  | cons c cs ih =>
    simp only [noNl, Bool.and_eq_true, bne_iff_ne, ne_eq] at h
    rw [splitNl_cons, if_neg h.1, ih (by simp [h.2])]

/-- Splitting after a newline-free prefix peels that prefix off. -/
theorem splitNl_append_newline (l rest : List Char) (h : noNl l = true) :
    splitNl (l ++ '\n' :: rest) = l :: splitNl rest := by
  induction l with
  | nil =>
    show splitNl ('\n' :: rest) = [] :: splitNl rest
    rw [splitNl_cons, if_pos rfl]
  | cons c cs ih =>
    simp only [noNl, Bool.and_eq_true, bne_iff_ne, ne_eq] at h
    show splitNl (c :: (cs ++ '\n' :: rest)) = (c :: cs) :: splitNl rest
    rw [splitNl_cons, if_neg h.1, ih (by simp [h.2])]

/-- Splitting undoes joining for a non-empty list of newline-free lines. -/
theorem splitNl_joinNl (ls : List (List Char)) (hne : ls ≠ [])
    (h : ∀ l ∈ ls, noNl l = true) : splitNl (joinNl ls) = ls := by
  induction ls with
  | nil => exact absurd rfl hne
  | cons l ls ih =>
    cases ls with
    | nil => exact splitNl_of_noNl l (h l (List.mem_cons_self _ _))
    | cons l2 ls2 =>
      show splitNl (l ++ '\n' :: joinNl (l2 :: ls2)) = l :: (l2 :: ls2)
      rw [splitNl_append_newline l _ (h l (List.mem_cons_self _ _))]
      rw [ih (by simp) fun x hx => h x (List.mem_cons_of_mem _ hx)]

/-- The joined lines start with the first line's first character. -/
theorem joinNl_headNS (l : List Char) (ls : List (List Char))
    (h : headNS l = true) : headNS (joinNl (l :: ls)) = true := by
  cases ls with
  | nil => exact h
  | cons l2 ls2 =>
    show headNS (l ++ '\n' :: joinNl (l2 :: ls2)) = true
    exact headNS_append _ _ h

/-- The joined lines end with the last line's last character. -/
theorem joinNl_reverse_headNS (ls : List (List Char)) (hne : ls ≠ [])
    (h : ∀ l ∈ ls, headNS l.reverse = true) :
    headNS (joinNl ls).reverse = true := by
  induction ls with
  | nil => exact absurd rfl hne
  | cons l ls ih =>
    cases ls with
    | nil => exact h l (List.mem_cons_self _ _)
    | cons l2 ls2 =>
      show headNS ((l ++ '\n' :: joinNl (l2 :: ls2)).reverse) = true
      rw [List.reverse_append]
      have hih : headNS (joinNl (l2 :: ls2)).reverse = true :=
        ih (by simp) fun x hx => h x (List.mem_cons_of_mem _ hx)
      rw [show ('\n' :: joinNl (l2 :: ls2)).reverse
          = (joinNl (l2 :: ls2)).reverse ++ ['\n'] from List.reverse_cons _ _,
        List.append_assoc]
      exact headNS_append _ _ hih

/-- `filterMap` over a `map` that every element survives is the identity. -/
theorem filterMap_map_eq_self {α β : Type} (f : α → β) (g : β → Option α)
    (l : List α) (h : ∀ a ∈ l, g (f a) = some a) : (l.map f).filterMap g = l := by
  induction l with
  | nil => rfl
  | cons a tl ih =>
    simp only [List.map_cons, List.filterMap_cons, h a (List.mem_cons_self _ _)]
    rw [ih fun x hx => h x (List.mem_cons_of_mem _ hx)]

/-- The per-line parser recovers a turn from its canonical pipe line,
given a canonical single-character speaker and a well-edged text. -/
theorem parseLine_pipe_char (c : Char) (y : String)
    (hbc : blankOrComment (c :: '|' :: y.data) = false)
    (hsplit : splitPipe (c :: '|' :: y.data) = ([c], y.data))
    (hid : (⟨upperL (stripL [c])⟩ : String) ∈ GOOGLE_SPEAKER_IDS)
    (hidc : (⟨upperL (stripL [c])⟩ : String) = (⟨[c]⟩ : String))
    (hcns : pySpace c = false)
    (hgt : goodTextB y.data = true) :
    parseLine (c :: '|' :: y.data) = some ⟨⟨[c]⟩, y⟩ := by
  simp only [goodTextB, Bool.and_eq_true] at hgt
  obtain ⟨⟨hnl, hh⟩, hr⟩ := hgt
  have hyne : y.data ≠ [] := by
    intro h0
    rw [h0] at hh
    exact Bool.noConfusion hh
  have hrev : headNS ((c :: '|' :: y.data).reverse) = true := by
    rw [List.reverse_cons, List.reverse_cons, List.append_assoc]
    exact headNS_append _ _ hr
  have hhead : headNS (c :: '|' :: y.data) = true := by simp [headNS, hcns]
  have hstrip := stripL_eq_self _ hhead hrev
  have htext := stripL_eq_self y.data hh hr
  have hpm : '|' ∈ (c :: '|' :: y.data) :=
    List.mem_cons_of_mem _ (List.mem_cons_self _ _)
  simp only [parseLine, hstrip]
  rw [hbc]
  simp only [Bool.false_eq_true, if_false]
  rw [if_pos hpm]
  simp only [pipeTier, hsplit]
  rw [htext, hidc]
  rw [if_pos ⟨hidc ▸ hid, hyne⟩]

/-- The per-line parser recovers every good turn from its canonical pipe
line. -/
theorem parseLine_lineOf (t : Turn) (h : goodTurn t) :
    parseLine (lineOf t) = some t := by
  obtain ⟨sp, y⟩ := t
  obtain ⟨hsp, hgt⟩ := h
  simp only [GOOGLE_SPEAKER_IDS, List.mem_cons, List.not_mem_nil, or_false] at hsp
  rcases hsp with rfl | rfl | rfl | rfl
  · exact parseLine_pipe_char 'R' y rfl rfl (by decide) rfl rfl hgt
  · exact parseLine_pipe_char 'S' y rfl rfl (by decide) rfl rfl hgt
  · exact parseLine_pipe_char 'T' y rfl rfl (by decide) rfl rfl hgt
  · exact parseLine_pipe_char 'U' y rfl rfl (by decide) rfl rfl hgt

/-- Parsing undoes serialization for a non-empty list of good turns. -/
theorem parse_serializeTurns (ts : List Turn) (hne : ts ≠ [])
    (hg : ∀ t ∈ ts, goodTurn t) :
    parse_google_script (serializeTurns ts) = ts := by
  have hdata : (serializeTurns ts).data = joinNl (ts.map lineOf) := rfl
  have hlineNoNl : ∀ l ∈ ts.map lineOf, noNl l = true := by
    intro l hl
    obtain ⟨t, ht, rfl⟩ := List.mem_map.mp hl
    obtain ⟨hsp, hgt⟩ := hg t ht
    simp only [goodTextB, Bool.and_eq_true] at hgt
    simp only [GOOGLE_SPEAKER_IDS, List.mem_cons, List.not_mem_nil, or_false] at hsp
    rcases hsp with h | h | h | h <;>
      rw [lineOf, h, noNl_append] <;>
      simp [noNl, hgt.1.1]
  have hlineHead : ∀ l ∈ ts.map lineOf, headNS l = true := by
    intro l hl
    obtain ⟨t, ht, rfl⟩ := List.mem_map.mp hl
    obtain ⟨hsp, _⟩ := hg t ht
    simp only [GOOGLE_SPEAKER_IDS, List.mem_cons, List.not_mem_nil, or_false] at hsp
    rcases hsp with h | h | h | h <;> rw [lineOf, h] <;> rfl
  have hlineRev : ∀ l ∈ ts.map lineOf, headNS l.reverse = true := by
    intro l hl
    obtain ⟨t, ht, rfl⟩ := List.mem_map.mp hl
    obtain ⟨_, hgt⟩ := hg t ht
    simp only [goodTextB, Bool.and_eq_true] at hgt
    rw [lineOf, List.reverse_append, List.reverse_cons, List.append_assoc]
    exact headNS_append _ _ hgt.2
  have hmapne : ts.map lineOf ≠ [] := by
    intro h0
    exact hne (List.map_eq_nil_iff.mp h0)
  have hjoinHead : headNS (joinNl (ts.map lineOf)) = true := by
    cases ts with
    | nil => exact absurd rfl hne
    | cons t rest =>
      exact joinNl_headNS _ _ (hlineHead _ (List.mem_map_of_mem _ (List.mem_cons_self _ _)))
  have hjoinRev := joinNl_reverse_headNS _ hmapne hlineRev
  have hstrip : stripL (joinNl (ts.map lineOf)) = joinNl (ts.map lineOf) :=
    stripL_eq_self _ hjoinHead hjoinRev
  have hsplit : splitNl (joinNl (ts.map lineOf)) = ts.map lineOf :=
    splitNl_joinNl _ hmapne hlineNoNl
  have hfm : (ts.map lineOf).filterMap parseLine = ts :=
    filterMap_map_eq_self _ _ _ fun t ht => parseLine_lineOf t (hg t ht)
  simp only [parse_google_script, hdata, hstrip, hsplit, hfm]
  rw [if_neg]
  intro hand
  exact hne hand.1

/-- The response-intro pool entries start with a non-space character and
contain no newline. -/
theorem responses_getD_facts (i : Nat) :
    headNS ((responses.getD (i % responses.length) "").data) = true ∧
      noNl ((responses.getD (i % responses.length) "").data) = true := by
  have hlt : i % responses.length < 10 := by
    rw [show responses.length = 10 from rfl]
    exact Nat.mod_lt _ (by decide)
  exact (by decide :
    ∀ j < 10, headNS ((responses.getD j "").data) = true ∧
      noNl ((responses.getD j "").data) = true) _ hlt

/-- Every content-prompt pool entry is a well-edged text. -/
theorem content_prompts_getD_good (i : Nat) :
    goodTextB ((content_prompts.getD (i % content_prompts.length) "").data) = true := by
  have hlt : i % content_prompts.length < 10 := by
    rw [show content_prompts.length = 10 from rfl]
    exact Nat.mod_lt _ (by decide)
  exact (by decide :
    ∀ j < 10, goodTextB ((content_prompts.getD j "").data) = true) _ hlt

/-- Every reaction pool entry is a well-edged text. -/
theorem reactions_getD_good (i : Nat) :
    goodTextB ((reactions.getD (i % reactions.length) "").data) = true := by
  have hlt : i % reactions.length < 4 := by
    rw [show reactions.length = 4 from rfl]
    exact Nat.mod_lt _ (by decide)
  exact (by decide :
    ∀ j < 4, goodTextB ((reactions.getD j "").data) = true) _ hlt

/-- A text of the shape `prefix ++ middle ++ suffix` is well-edged when
the prefix starts well, the suffix ends well, and no part contains a
newline. -/
theorem goodTextB_sandwich (pre mid post : String)
    (h1 : headNS pre.data = true) (h2 : headNS post.data.reverse = true)
    (h3 : noNl pre.data = true) (h4 : noNl post.data = true)
    (hm : noNl mid.data = true) :
    goodTextB ((pre ++ mid ++ post).data) = true := by
  have hd : (pre ++ mid ++ post).data = pre.data ++ (mid.data ++ post.data) := by
    rw [string_data_append, string_data_append, List.append_assoc]
  have hrev : headNS ((pre.data ++ (mid.data ++ post.data)).reverse) = true := by
    apply headNS_reverse_append
    rw [List.reverse_append]
    exact headNS_append _ _ h2
  rw [hd]
  unfold goodTextB
  rw [noNl_append, noNl_append, h3, hm, h4, headNS_append _ _ h1, hrev]
  rfl

/-- The three loop speaker indices (and index 1) of every catalog
speaker list name canonical speaker ids. -/
theorem getD_mem_ids (S : List String)
    (hS : S = ["R", "S"] ∨ S = ["R", "S", "T", "U"] ∨ S = ["R", "S", "T"]) :
    S.getD 0 "" ∈ GOOGLE_SPEAKER_IDS ∧ S.getD (1 % S.length) "" ∈ GOOGLE_SPEAKER_IDS ∧
      S.getD (2 % S.length) "" ∈ GOOGLE_SPEAKER_IDS ∧
      S.getD 1 "" ∈ GOOGLE_SPEAKER_IDS := by
  rcases hS with rfl | rfl | rfl <;> decide

/-- With a newline-free topic and newline-free, non-empty key points,
every turn a body iteration emits is good. -/
theorem bodyStep_good (S : List String) (topic : String) (kps : Option (List String))
    (i : Nat)
    (hS : S = ["R", "S"] ∨ S = ["R", "S", "T", "U"] ∨ S = ["R", "S", "T"])
    (ht : noNl topic.data = true)
    (hk : ∀ ks, kps = some ks → ks ≠ [] ∧ ∀ p ∈ ks, noNl p.data = true) :
    ∀ step, bodyStep S topic kps i = some step → ∀ t ∈ step, goodTurn t := by
  intro step hstep t htm
  obtain ⟨hm0, hm1, hm2, _⟩ := getD_mem_ids S hS
  have hq : goodTurn ⟨S.getD 0 "", content_prompts.getD (i % content_prompts.length) ""⟩ :=
    ⟨hm0, content_prompts_getD_good i⟩
  have hreact : goodTurn
      ⟨S.getD (2 % S.length) "", reactions.getD (i % reactions.length) ""⟩ :=
    ⟨hm2, reactions_getD_good i⟩
  cases kps with
  | none =>
    simp only [bodyStep] at hstep
    injection hstep with hst
    subst hst
    have hresp : goodTurn ⟨S.getD (1 % S.length) "",
        responses.getD (i % responses.length) "" ++ " " ++ topic
          ++ " has many dimensions we need to consider."⟩ := by
      refine ⟨hm1, goodTextB_sandwich _ _ _ ?_ (by decide) ?_ (by decide) ht⟩
      · rw [string_data_append]
        exact headNS_append _ _ (responses_getD_facts i).1
      · rw [string_data_append, noNl_append, (responses_getD_facts i).2]
        rfl
    rcases List.mem_append.mp htm with h | h
    · simp only [List.mem_cons, List.not_mem_nil, or_false] at h
      rcases h with rfl | rfl
      · exact hq
      · exact hresp
    · split at h
      · simp only [List.mem_cons, List.not_mem_nil, or_false] at h
        subst h
        exact hreact
      · exact absurd h (List.not_mem_nil t)
  | some kp =>
    obtain ⟨hkne, hkn⟩ := hk kp rfl
    have hlen : ¬ kp.length = 0 := fun h0 => hkne (List.length_eq_zero.mp h0)
    simp only [bodyStep, if_neg hlen] at hstep
    injection hstep with hst
    subst hst
    have hpoint : noNl ((kp.getD (i % kp.length) "").data) = true := by
      have hlt : i % kp.length < kp.length :=
        Nat.mod_lt _ (Nat.pos_of_ne_zero hlen)
      refine hkn _ ?_
      rw [List.getD_eq_getElem kp "" hlt]
      exact List.getElem_mem hlt
    have hresp : goodTurn ⟨S.getD (1 % S.length) "",
        responses.getD (i % responses.length) "" ++ " When it comes to "
          ++ kp.getD (i % kp.length) "" ++ " in " ++ topic
          ++ ", we're seeing significant developments."⟩ := by
      refine ⟨hm1, ?_⟩
      have hshape : responses.getD (i % responses.length) "" ++ " When it comes to "
            ++ kp.getD (i % kp.length) "" ++ " in " ++ topic
            ++ ", we're seeing significant developments."
          = (responses.getD (i % responses.length) "" ++ " When it comes to "
              ++ kp.getD (i % kp.length) "" ++ " in ") ++ topic
            ++ ", we're seeing significant developments." := by
        simp [String.ext_iff, string_data_append, List.append_assoc]
      rw [hshape]
      refine goodTextB_sandwich _ _ _ ?_ (by decide) ?_ (by decide) ht
      · rw [string_data_append, string_data_append, string_data_append]
        exact headNS_append _ _ (headNS_append _ _ (headNS_append _ _
          (responses_getD_facts i).1))
      · rw [string_data_append, string_data_append, string_data_append,
          noNl_append, noNl_append, noNl_append,
          (responses_getD_facts i).2, hpoint]
        rfl
    rcases List.mem_append.mp htm with h | h
    · simp only [List.mem_cons, List.not_mem_nil, or_false] at h
      rcases h with rfl | rfl
      · exact hq
      · exact hresp
    · split at h
      · simp only [List.mem_cons, List.not_mem_nil, or_false] at h
        subst h
        exact hreact
      · exact absurd h (List.not_mem_nil t)

/-- Every turn the whole body loop emits is good. -/
theorem genBody_good (S : List String) (topic : String) (kps : Option (List String))
    (hS : S = ["R", "S"] ∨ S = ["R", "S", "T", "U"] ∨ S = ["R", "S", "T"])
    (ht : noNl topic.data = true)
    (hk : ∀ ks, kps = some ks → ks ≠ [] ∧ ∀ p ∈ ks, noNl p.data = true)
    (n : Nat) :
    ∀ body, genBody S topic kps n = some body → ∀ t ∈ body, goodTurn t := by
  induction n with
  | zero =>
    intro body hb
    injection hb with h
    subst h
    intro t htm
    exact absurd htm (List.not_mem_nil t)
  | succ n ih =>
    intro body hb
    unfold genBody at hb
    split at hb
    · rename_i acc step hacc hstep
      injection hb with h
      subst h
      intro t htm
      rcases List.mem_append.mp htm with h | h
      · exact ih acc hacc t h
      · exact bodyStep_good S topic kps n hS ht hk step hstep t h
    · exact absurd hb (by simp)

/-- Every opening turn is good when the topic is newline-free. -/
theorem opening_good (fmt topic : String) (S : List String)
    (hS : S = ["R", "S"] ∨ S = ["R", "S", "T", "U"] ∨ S = ["R", "S", "T"])
    (ht : noNl topic.data = true) :
    ∀ t ∈ openingTurns fmt topic S, goodTurn t := by
  intro t htm
  obtain ⟨hm0, _, _, hm1⟩ := getD_mem_ids S hS
  unfold openingTurns at htm
  by_cases h1 : fmt = "interview"
  · rw [if_pos h1] at htm
    simp only [List.mem_cons, List.not_mem_nil, or_false] at htm
    rcases htm with rfl | rfl
    · exact ⟨(by decide : ("R" : String) ∈ GOOGLE_SPEAKER_IDS),
        goodTextB_sandwich _ _ _ (by decide) (by decide) (by decide) (by decide) ht⟩
    · exact ⟨(by decide : ("S" : String) ∈ GOOGLE_SPEAKER_IDS),
        (by decide : goodTextB ("Thank you for having me! I'm excited to dive into this topic with your listeners." : String).data = true)⟩
  · by_cases h2 : fmt = "debate"
    · rw [if_neg h1, if_pos h2] at htm
      simp only [List.mem_cons, List.not_mem_nil, or_false] at htm
      rcases htm with rfl | rfl | rfl
      · exact ⟨(by decide : ("R" : String) ∈ GOOGLE_SPEAKER_IDS),
          goodTextB_sandwich _ _ _ (by decide) (by decide) (by decide) (by decide) ht⟩
      · exact ⟨(by decide : ("S" : String) ∈ GOOGLE_SPEAKER_IDS),
          (by decide : goodTextB ("I'm here to argue for the positive aspects and potential benefits." : String).data = true)⟩
      · exact ⟨(by decide : ("T" : String) ∈ GOOGLE_SPEAKER_IDS),
          (by decide : goodTextB ("And I'll be presenting the concerns and challenges we need to consider." : String).data = true)⟩
    · rw [if_neg h1, if_neg h2] at htm
      rcases List.mem_append.mp htm with h | h
      · simp only [List.mem_cons, List.not_mem_nil, or_false] at h
        subst h
        exact ⟨hm0, goodTextB_sandwich _ _ _ (by decide) (by decide) (by decide)
          (by decide) ht⟩
      · split at h
        · simp only [List.mem_cons, List.not_mem_nil, or_false] at h
          subst h
          exact ⟨hm1, (by decide : goodTextB ("Absolutely! This is such a relevant topic right now." : String).data = true)⟩
        · exact absurd h (List.not_mem_nil t)

/-- Every closing turn is good when the topic is newline-free. -/
theorem closing_good (topic : String) (S : List String)
    (hS : S = ["R", "S"] ∨ S = ["R", "S", "T", "U"] ∨ S = ["R", "S", "T"])
    (ht : noNl topic.data = true) :
    ∀ t ∈ closingTurns topic S, goodTurn t := by
  intro t htm
  obtain ⟨hm0, _, _, hm1⟩ := getD_mem_ids S hS
  unfold closingTurns at htm
  rcases List.mem_append.mp htm with h | h
  · rcases List.mem_append.mp h with h | h
    · simp only [List.mem_cons, List.not_mem_nil, or_false] at h
      subst h
      exact ⟨hm0, goodTextB_sandwich _ _ _ (by decide) (by decide) (by decide)
        (by decide) ht⟩
    · split at h
      · simp only [List.mem_cons, List.not_mem_nil, or_false] at h
        subst h
        exact ⟨hm1, (by decide : goodTextB ("The key takeaway is to stay informed and engaged with these developments." : String).data = true)⟩
      · exact absurd h (List.not_mem_nil t)
  · simp only [List.mem_cons, List.not_mem_nil, or_false] at h
    subst h
    exact ⟨hm0, (by decide : goodTextB ("Thank you for joining us today. Until next time!" : String).data = true)⟩

/-- C2 (amended): for every topic and key-point values containing no
newline (and key points non-empty when present), serializing the
generated turns as canonical pipe lines and re-parsing reproduces exactly
the same turn sequence. -/
theorem c2_amended_round_trip (topic fmt : String) (d : Int)
    (ctx : Option (List String))
    (htop : noNl topic.data = true)
    (hctx : ∀ ks, ctx = some ks → ks ≠ [] ∧ ∀ p ∈ ks, noNl p.data = true)
    (hd : 1 ≤ d) :
    ∃ ts, generate_dialogue_turns topic fmt d ctx = some ts ∧
      parse_google_script (serializeTurns ts) = ts := by
  have hcne : ctx ≠ some [] := fun h => (hctx [] h).1 rfl
  obtain ⟨body, hb, _⟩ := genBody_total (lookupFormat fmt) topic ctx hcne
    ((min (d * 2 - 4) (content_prompts.length : Int)).toNat)
  have hS := lookupFormat_cases fmt
  refine ⟨_, generate_eq_blocks topic fmt d ctx body hb,
    parse_serializeTurns _ ?_ ?_⟩
  · intro h0
    have h3 := closing_length_eq topic (lookupFormat fmt)
      (speaker_indices_mem _ hS).2.2.2
    have h4 := congrArg List.length h0
    simp only [List.length_append, List.length_nil] at h4
    omega
  · intro t htm
    rcases List.mem_append.mp htm with h | h
    · rcases List.mem_append.mp h with h | h
      · exact opening_good fmt topic _ hS htop t h
      · exact genBody_good _ _ _ hS htop hctx _ body hb t h
    · exact closing_good topic _ hS htop t h

/-- C2 witness: the amended round-trip theorem applied at a concrete
newline-free input. -/
theorem c2_witness :
    noNl ("AI" : String).data = true ∧ (1 : Int) ≤ 2 ∧
      ∃ ts, generate_dialogue_turns "AI" "interview" 2 none = some ts ∧
        parse_google_script (serializeTurns ts) = ts :=
  ⟨by decide, by decide,
    c2_amended_round_trip "AI" "interview" 2 none (by decide)
      (by intro ks h; exact Option.noConfusion h) (by decide)⟩
